import Mathlib

/-!
# MindBase — verification of the ingestion-to-retrieval pipeline

Shallow embedding of the MindBase repository (React Native client in
`src/mobile`, relational schema in `src/backend/supabase_schema.sql`).
The client code and the SQL schema are embedded directly from the source.
The Python/FastAPI backend (`backend/app/api/items.py`, `chat.py`,
`upload.py`, `services/ai_service.py`) is not present in the repository
snapshot — only its client (`api.ts`), its schema, and its documentation
are — so the backend operations are modelled from the specification and
are marked `Modelled from the spec:` in their doc comments.

Strings are `String`, timestamps are `Nat`, the relational store is a
`List SavedItem`, and the external LLM / embedding / vector services are
parameters (an outcome argument, or a `String → String` function), which
makes every operation a pure total function of its inputs.
-/

namespace MindBase

/-- The central entity, one row of the `saved_items` table
(`src/backend/supabase_schema.sql`) and the `SavedItem` interface of
`api.ts` (`src/unnamed/part_002`).  `created_at` and `updated_at` are
abstract timestamps; `updated_at` is `none` until the first UPDATE, since
the column has no DEFAULT and is only set by the `update_updated_at`
trigger. -/
structure SavedItem where
  id : String
  user_id : String
  source_platform : String
  source_url : Option String
  content_type : String
  title : Option String
  description : Option String
  thumbnail_url : Option String
  raw_content : String
  extracted_text : Option String
  ai_summary : Option String
  categories : List String
  notes : Option String
  is_starred : Bool
  created_at : Nat
  updated_at : Option Nat
deriving DecidableEq, Repr

/-- A chat turn as held by the client (`api.ts`: `ChatMessage`). -/
structure ChatMessage where
  role : String
  content : String
deriving DecidableEq, Repr

/-- JavaScript `String.prototype.startsWith`, embedded over character
lists. -/
def jsStartsWith (s pre : String) : Bool :=
  decide (pre.toList <+: s.toList)

/-- JavaScript `String.prototype.toLowerCase`, embedded over character
lists. -/
def jsToLower (s : String) : String :=
  String.mk (s.toList.map Char.toLower)

/-- JavaScript `String.prototype.trim`, embedded over character lists:
whitespace stripped from both ends. -/
def jsTrim (s : String) : String :=
  String.mk (((s.toList.dropWhile Char.isWhitespace).reverse.dropWhile
    Char.isWhitespace).reverse)

/-- Substring test on strings, used to embed JavaScript
`String.prototype.includes` and Python `in`. -/
def strContains (s pat : String) : Bool :=
  decide (pat.toList <:+: s.toList)

/-- Case-insensitive substring test (`ilike`-style matching). -/
def strContainsCI (s pat : String) : Bool :=
  strContains (jsToLower s) (jsToLower pat)

theorem jsTrim_empty : jsTrim "" = "" := rfl

theorem jsTrim_ne_empty {s : String} (h : jsTrim s ≠ "") : s ≠ "" := by
  intro he
  subst he
  exact h jsTrim_empty

theorem strContains_append_right (pre pat : String) :
    strContains (pre ++ pat) pat = true := by
  apply decide_eq_true
  refine List.IsSuffix.isInfix ?_
  show pat.toList <:+ (pre ++ pat).toList
  have h : (pre ++ pat).toList = pre.toList ++ pat.toList := by
    simp [String.toList, String.data_append]
  rw [h]
  exact List.suffix_append pre.toList pat.toList

/-! ## Content classification

The client classifies clipboard / shared content with a URL-pattern check
(`HomeScreen.tsx` `getContentType`, lines 257–262, and the bubble tap
handler in `src/unnamed/part_001`, lines 160–168).  The backend
classifier that additionally picks the source platform and sets
`source_url` lives in the missing `backend/app/services` code and is
modelled from §4.1 of the specification. -/

/-- The URL pattern used throughout the client:
`content.startsWith('http://') || content.startsWith('https://')`. -/
def isUrlPattern (raw : String) : Bool :=
  jsStartsWith raw "http://" || jsStartsWith raw "https://"

/-- Embeds `HomeScreen.tsx` lines 257–262: determine content type of the
clipboard content (`'url'` for http/https prefixes, `'text'` otherwise;
the declared `'file'` alternative is never returned). -/
def getContentType (clipboardContent : String) : String :=
  if jsStartsWith clipboardContent "http://" || jsStartsWith clipboardContent "https://" then
    "url"
  else
    "text"

/-- Embeds `HomeScreen.tsx` `handleFabPress` (lines 223–235): the clipboard text
is offered for saving only when it is non-blank
(`if (content && content.trim())`); the save dialog then submits
`content.trim()`.  The result is the content handed to `api.saveContent`,
or `none` when the press is rejected with the empty-clipboard alert. -/
def handleFabPress (clipboard : String) : Option String :=
  if jsTrim clipboard = "" then none else some (jsTrim clipboard)

/-- Modelled from the spec (§4.1): the ordered list of known-platform
domain patterns, first match wins.  The platform vocabulary is the one
the client renders (`HomeScreen.tsx` `platformColors`): youtube, twitter,
tiktok, telegram, whatsapp, instagram, facebook, with fallback
`generic`. -/
def platformPatterns : List (String × String) :=
  [("youtube", "youtube"), ("youtu.be", "youtube"),
   ("twitter", "twitter"), ("x.com", "twitter"),
   ("tiktok", "tiktok"),
   ("t.me", "telegram"), ("telegram", "telegram"),
   ("whatsapp", "whatsapp"),
   ("instagram", "instagram"),
   ("facebook", "facebook")]

/-- Modelled from the spec (§4.1): platform of a URL, chosen by matching
the URL against the ordered pattern list, `generic` if none match. -/
def platformOf (url : String) : String :=
  match platformPatterns.find? (fun p => strContains url p.1) with
  | some p => p.2
  | none => "generic"

/-- Modelled from the spec (§4.1): the backend content classifier
(`backend/app/services/content_extractor.py`, not in the snapshot).
`classify raw = (content_type, source_platform, source_url?)`.  If `raw`
matches the URL pattern the result is `("url", platform, some raw)`,
otherwise `("text", "generic", none)`.  Image input does not pass through
this classifier: it arrives pre-tagged via the image-upload operation.
Purity and determinism hold by construction: `classify` is a function of
`raw` alone. -/
def classify (raw : String) : String × String × Option String :=
  if isUrlPattern raw then ("url", platformOf raw, some raw)
  else ("text", "generic", none)

/-! ## The API client (`api.ts`, `src/unnamed/part_002` lines 413–498) -/

/-- The part of a fetch `Response` that `ApiService.fetch` inspects:
`response.ok`, `response.status`, and the parsed JSON body (abstracted to
a `String`). -/
structure HttpResponse where
  ok : Bool
  status : Nat
  body : String
deriving DecidableEq, Repr

/-- The endpoints of `ApiService`: save, list, categories, search, chat,
delete, image upload (`api.ts` lines 443–497).  Each delegates to the
shared `this.fetch`. -/
inductive ApiOp
  | save
  | list
  | categories
  | search
  | chat
  | delete
  | upload
deriving DecidableEq, Repr

/-- Embeds `ApiService.fetch` (`api.ts` lines 421–441): if `!response.ok`,
`throw new Error('API Error: ' + response.status)`; otherwise return
`response.json()`. -/
def apiFetch (resp : HttpResponse) : Except String String :=
  if resp.ok then Except.ok resp.body
  else Except.error ("API Error: " ++ toString resp.status)

/-- Every `ApiService` operation runs its request through the shared
`ApiService.fetch`; the operation only chooses endpoint and payload,
never the response handling. -/
def runOp (_ : ApiOp) (resp : HttpResponse) : Except String String :=
  apiFetch resp

/-! ## Retrieval engine

The backend search and chat endpoints (`backend/app/api/items.py` and
`chat.py`) are not in the snapshot; they are modelled from §4.5 of the
specification.  The vector/semantic path is an external dependency and is
passed in as an outcome: `none` when the vector index is unavailable,
`some items` when it answered. -/

/-- Modelled from the spec (§4.5): the case-insensitive keyword fallback,
a substring match over `title`, `ai_summary` and `extracted_text` in the
relational store. -/
def keywordFallback (st : List SavedItem) (query : String) : List SavedItem :=
  st.filter fun it =>
    strContainsCI (it.title.getD "") query ||
    strContainsCI (it.ai_summary.getD "") query ||
    strContainsCI (it.extracted_text.getD "") query

/-- Modelled from the spec (§4.5): semantic search with deterministic
fallback.  `vectorResult` is the nearest-neighbour answer of the vector
index (`none` = index unavailable).  When the vector path yields an empty
result or is unavailable, the keyword fallback runs instead of raising;
the function is total, so search never errors. -/
def searchItems (vectorResult : Option (List SavedItem)) (st : List SavedItem)
    (query : String) : List SavedItem :=
  match vectorResult with
  | some items => if items.isEmpty then keywordFallback st query else items
  | none => keywordFallback st query

/-- Embeds `SearchScreen.tsx` `performSearch` (lines 24–39): a blank query is
ignored (the previous results stand); otherwise the api.search outcome is
resolved to `response.items || []` on success and to `[]` on any error —
the handler never propagates an exception.  `outcome` is the settled
promise of `api.search`, with the body's `items` field optional as in
`response.items || []`. -/
def performSearch (query : String) (outcome : Except String (Option (List SavedItem)))
    (prevResults : List SavedItem) : List SavedItem :=
  if jsTrim query = "" then prevResults
  else
    match outcome with
    | Except.ok resp => resp.getD []
    | Except.error _ => []

/-- What the backend chat endpoint returns: the model's answer and the
items used as grounding context (`response` / `related_items`, consumed
by `ChatScreen.tsx` lines 63–74). -/
structure ChatResult where
  response : String
  related_items : List SavedItem
deriving DecidableEq, Repr

/-- Modelled from the spec (§4.5): the grounding prompt built from the
conversation history, the retrieved context items (their titles and
summaries) and the user message. -/
def buildPrompt (history : List ChatMessage) (message : String)
    (ctx : List SavedItem) : String :=
  String.intercalate "\n" (history.map fun m => m.role ++ ": " ++ m.content)
    ++ "\n" ++
    String.intercalate "\n" (ctx.map fun it =>
      it.title.getD "" ++ " " ++ it.ai_summary.getD "")
    ++ "\n" ++ message

/-- Modelled from the spec (§4.5): the Chat operation
(`backend/app/api/chat.py`, not in the snapshot).  It runs Search
internally with the user message as the query, keeps a bounded top-K of
the hits as grounding context, asks the completion model (`llm`, an
external dependency passed as a function) with history plus that context,
and returns the answer together with the context items so the caller can
render sources. -/
def chat (llm : String → String) (vectorResult : Option (List SavedItem))
    (st : List SavedItem) (message : String) (history : List ChatMessage) : ChatResult :=
  let ctx := (searchItems vectorResult st message).take 5
  { response := llm (buildPrompt history message ctx), related_items := ctx }

/-! ## The relational store and its write operations

The store is the `saved_items` table as a list of rows.  The backend
handlers that write to it (`backend/app/api/items.py`, `upload.py`) are
not in the snapshot and are modelled from §4.4, §6 and §7 of the
specification; the schema itself (column nullability, the
`update_updated_at` trigger) is embedded from
`src/backend/supabase_schema.sql`. -/

/-- Hard failures of the backend operations (spec §7): not-found for
get/delete/star on a missing id, invalid input for empty content or an
unparseable image payload. -/
inductive ApiError
  | notFound
  | invalidInput
deriving DecidableEq, Repr

/-- By-id lookup in the store (first matching row). -/
def findItem (st : List SavedItem) (id : String) : Option SavedItem :=
  match st with
  | [] => none
  | it :: rest => if it.id = id then some it else findItem rest id

/-- The `is_starred` value the store holds for `id`, if the row exists. -/
def starOf (st : List SavedItem) (id : String) : Option Bool :=
  (findItem st id).map fun it => it.is_starred

/-- Page metadata the extractor may fetch for a URL (spec §4.2):
title, description, optional thumbnail. -/
structure PageMeta where
  title : String
  description : String
  thumbnail : Option String
deriving DecidableEq, Repr

/-- The single shared owner identity (`user_id TEXT NOT NULL DEFAULT
'default_user'` in the schema; `'default_user'` in the client,
`src/unnamed/part_001` line 73). -/
def defaultOwner : String := "default_user"

/-- Modelled from the spec (§4.2–§4.4): the save pipeline
(`backend/app/api/items.py`, not in the snapshot) —
classify → extract → enrich → persist.  Empty content is a hard failure
rejected before persistence (§7); extraction and enrichment outcomes are
soft and arrive as parameters (`meta` for the URL fetch, `summary` and
`cats` for the completion call), absent/empty on their failure.  The row
is inserted with `created_at = now` (schema DEFAULT `NOW()`) and
`updated_at` unset (no DEFAULT, trigger fires only on UPDATE). -/
def saveContent (st : List SavedItem) (id : String) (now : Nat)
    (content : String) (notes : Option String) (meta : Option PageMeta)
    (summary : Option String) (cats : List String) :
    Except ApiError (List SavedItem × SavedItem) :=
  if jsTrim content = "" then Except.error ApiError.invalidInput
  else
    let c := classify content
    let it : SavedItem :=
      { id := id
        user_id := defaultOwner
        source_platform := c.2.1
        source_url := c.2.2
        content_type := c.1
        title := if c.1 = "url" then (meta.map fun m => m.title) else none
        description := if c.1 = "url" then (meta.map fun m => m.description) else none
        thumbnail_url := if c.1 = "url" then (meta.bind fun m => m.thumbnail) else none
        raw_content := content
        extracted_text :=
          if c.1 = "url" then meta.map (fun m => m.title ++ " " ++ m.description)
          else some (jsTrim content)
        ai_summary := summary
        categories := cats
        notes := notes
        is_starred := false
        created_at := now
        updated_at := none }
    Except.ok (st ++ [it], it)

/-- Modelled from the spec (§6, §7): image upload
(`backend/app/api/upload.py`, not in the snapshot).  An unparseable
base64 payload — in particular an empty one — is a hard failure rejected
before persistence; otherwise the item is persisted with `content_type`
forced to `image` and no `source_url`. -/
def base64Parses (imageData : String) : Bool :=
  decide (imageData ≠ "")

/-- Modelled from the spec (§6): the image-upload operation.  `summary`
and `cats` are the soft enrichment outcomes, as in `saveContent`. -/
def uploadImage (st : List SavedItem) (id : String) (now : Nat)
    (imageData : String) (notes : Option String)
    (summary : Option String) (cats : List String) :
    Except ApiError (List SavedItem × SavedItem) :=
  if base64Parses imageData then
    let it : SavedItem :=
      { id := id
        user_id := defaultOwner
        source_platform := "generic"
        source_url := none
        content_type := "image"
        title := none
        description := none
        thumbnail_url := none
        raw_content := imageData
        extracted_text := notes
        ai_summary := summary
        categories := cats
        notes := notes
        is_starred := false
        created_at := now
        updated_at := none }
    Except.ok (st ++ [it], it)
  else Except.error ApiError.invalidInput

/-- The `update_updated_at` trigger of the schema (lines 40–51): every
UPDATE on a row sets `NEW.updated_at = NOW()` before the write. -/
def applyUpdateTrigger (it : SavedItem) (now : Nat) : SavedItem :=
  { it with updated_at := some now }

/-- The row-level effect of the star UPDATE: the targeted row gets its
`is_starred` flipped and the schema trigger stamps `updated_at`, every
other row is untouched. -/
def starFlipRow (id : String) (now : Nat) (j : SavedItem) : SavedItem :=
  if j.id = id then applyUpdateTrigger { j with is_starred := !j.is_starred } now
  else j

/-- Modelled from the spec (§6): the star-toggle operation
(`PATCH /items/\x7bid\x7d/star`, `backend/app/api/items.py`, not in the
snapshot).  A missing id is a not-found hard failure, never a silent
no-op; otherwise the row's `is_starred` is flipped (an UPDATE, so the
schema trigger stamps `updated_at`) and the new value is returned. -/
def toggleStar (st : List SavedItem) (id : String) (now : Nat) :
    Except ApiError (List SavedItem × Bool) :=
  match findItem st id with
  | none => Except.error ApiError.notFound
  | some it => Except.ok (st.map (starFlipRow id now), !it.is_starred)

/-- Modelled from the spec (§6): delete — removes the row (and the vector
entry), reporting not-found when the id is absent. -/
def deleteItem (st : List SavedItem) (id : String) :
    Except ApiError (List SavedItem) :=
  match findItem st id with
  | none => Except.error ApiError.notFound
  | some _ => Except.ok (st.filter fun it => !(it.id == id))

/-- The optional filter of the List operation (spec §4.5): by category
name, by starred flag, or none. -/
inductive ListFilter
  | all
  | category (name : String)
  | starred
deriving DecidableEq, Repr

/-- Does an item pass the requested filter? -/
def matchesFilter (f : ListFilter) (it : SavedItem) : Bool :=
  match f with
  | ListFilter.all => true
  | ListFilter.category name => it.categories.contains name
  | ListFilter.starred => it.is_starred

/-- An item is in scope for a List request when it belongs to the owner
and passes the filter. -/
def inListScope (owner : String) (f : ListFilter) (it : SavedItem) : Bool :=
  it.user_id == owner && matchesFilter f it

/-- Newest-first order on rows, the `ORDER BY created_at DESC` of the
List endpoint (supported by `idx_saved_items_created_at` in the
schema). -/
def createdDesc (a b : SavedItem) : Prop :=
  b.created_at ≤ a.created_at

instance : DecidableRel createdDesc := fun a b =>
  Nat.decLe b.created_at a.created_at

instance : IsTotal SavedItem createdDesc :=
  ⟨fun a b => Nat.le_total b.created_at a.created_at⟩

instance : IsTrans SavedItem createdDesc :=
  ⟨fun _ _ _ hab hbc => Nat.le_trans hbc hab⟩

/-- Modelled from the spec (§4.5, §6): the List operation
(`GET /items/`, `backend/app/api/items.py`, not in the snapshot) —
returns the owner's items passing the filter, ordered by `created_at`
descending, truncated to the limit. -/
def listItems (st : List SavedItem) (owner : String) (lim : Nat)
    (f : ListFilter) : List SavedItem :=
  ((st.filter (inListScope owner f)).insertionSort createdDesc).take lim

/-! ## Reachable store states

The write operations above are the only mutations of the store (spec §5:
star-toggle and delete are the only mutations after creation).  `Step`
is one successful backend write; `Reachable` closes the empty store under
steps. -/

/-- One successful write operation on the store. -/
inductive Step : List SavedItem → List SavedItem → Prop
  | save (st : List SavedItem) (id : String) (now : Nat) (content : String)
      (notes : Option String) (meta : Option PageMeta) (summary : Option String)
      (cats : List String) (st' : List SavedItem) (it : SavedItem)
      (h : saveContent st id now content notes meta summary cats = Except.ok (st', it)) :
      Step st st'
  | upload (st : List SavedItem) (id : String) (now : Nat) (imageData : String)
      (notes : Option String) (summary : Option String) (cats : List String)
      (st' : List SavedItem) (it : SavedItem)
      (h : uploadImage st id now imageData notes summary cats = Except.ok (st', it)) :
      Step st st'
  | star (st : List SavedItem) (id : String) (now : Nat)
      (st' : List SavedItem) (b : Bool)
      (h : toggleStar st id now = Except.ok (st', b)) :
      Step st st'
  | del (st : List SavedItem) (id : String) (st' : List SavedItem)
      (h : deleteItem st id = Except.ok st') :
      Step st st'

/-- Store states reachable from the empty table through the backend's
write operations. -/
inductive Reachable : List SavedItem → Prop
  | init : Reachable []
  | step {st st' : List SavedItem} (hr : Reachable st) (hs : Step st st') :
      Reachable st'

/-! ## The chat screen (`ChatScreen.tsx` lines 26–86)

`sendMessage` is embedded as one request cycle: the synchronous part
(guard, append user message and loading placeholder, clear input, set the
in-flight flag) followed by the settled outcome of `api.chat` (the `then`
or `catch` branch) and the `finally` reset of the flag. -/

/-- A message of the conversation (`ChatScreen.tsx` `Message`):
a `ChatMessage` plus an id, the loading flag of the placeholder, and the
related items attached once the answer arrives. -/
structure Message where
  id : String
  role : String
  content : String
  loading : Bool
  relatedItems : List SavedItem
deriving DecidableEq, Repr

/-- The screen state `sendMessage` reads and writes: the conversation,
the input field, and the in-flight flag. -/
structure ChatScreenState where
  messages : List Message
  input : String
  loading : Bool
deriving DecidableEq, Repr

/-- The settled outcome of the `api.chat` call: the parsed response on
success (`related` is `response.related_items`, optional in the client's
reading `response.related_items || []`), or any rejection. -/
inductive ChatOutcome
  | success (resp : String) (related : Option (List SavedItem))
  | failure
deriving Repr

/-- The fixed error text of the `catch` branch (`ChatScreen.tsx`
line 79). -/
def chatErrorText : String := "Sorry, I encountered an error. Please try again."

/-- The per-message body of the placeholder resolution (`ChatScreen.tsx`
lines 65–82): a message still in the loading state receives the answer
and related items on success, or the fixed error text on failure; settled
messages pass through unchanged. -/
def resolveOne (out : ChatOutcome) (m : Message) : Message :=
  if m.loading then
    match out with
    | ChatOutcome.success resp related =>
        { m with content := resp, loading := false,
                 relatedItems := related.getD [] }
    | ChatOutcome.failure =>
        { m with content := chatErrorText, loading := false }
  else m

/-- The placeholder resolution: both the `then` and the `catch` branch
map `resolveOne` over the whole conversation. -/
def resolveLoading (msgs : List Message) (out : ChatOutcome) : List Message :=
  msgs.map (resolveOne out)

/-- The user message appended by `sendMessage` (lines 41–45); `now` is
`Date.now()`. -/
def userMessageOf (s : ChatScreenState) (now : Nat) : Message :=
  { id := toString now, role := "user", content := jsTrim s.input,
    loading := false, relatedItems := [] }

/-- The assistant placeholder appended by `sendMessage` (lines 47–52). -/
def placeholderOf (now : Nat) : Message :=
  { id := toString (now + 1), role := "assistant", content := "",
    loading := true, relatedItems := [] }

/-- One full `sendMessage` cycle (lines 38–86).  Blank input or an
in-flight request is a no-op (`if (!input.trim() || loading) return`);
otherwise the user message and the placeholder are appended, the input is
cleared, and once the `api.chat` promise settles the placeholder is
resolved and the `finally` clause clears the in-flight flag. -/
def sendMessage (s : ChatScreenState) (now : Nat) (out : ChatOutcome) :
    ChatScreenState :=
  if jsTrim s.input = "" ∨ s.loading = true then s
  else
    { messages := resolveLoading (s.messages ++ [userMessageOf s now, placeholderOf now]) out
      input := ""
      loading := false }

/-! ## Theorems -/

/-- C9: every API client operation raises an error whose message contains
the HTTP status code whenever the server response status is not ok, and
returns the parsed response body if and only if the response status is
ok — no operation silently swallows a failed response or returns a value
for one (`ApiService.fetch`, `api.ts` lines 421–441). -/
theorem apiFetch_ok_iff_error_names_status (op : ApiOp) (resp : HttpResponse) :
    (resp.ok = true → runOp op resp = Except.ok resp.body) ∧
    (resp.ok = false → ∃ msg, runOp op resp = Except.error msg ∧
      strContains msg (toString resp.status) = true) ∧
    (∀ v, runOp op resp = Except.ok v → resp.ok = true ∧ v = resp.body) := by
  refine ⟨fun h => ?_, fun h => ?_, fun v hv => ?_⟩
  · simp [runOp, apiFetch, h]
  · refine ⟨"API Error: " ++ toString resp.status, ?_, ?_⟩
    · simp [runOp, apiFetch, h]
    · exact strContains_append_right "API Error: " (toString resp.status)
  · by_cases h : resp.ok = true
    · simp [runOp, apiFetch, h] at hv
      exact ⟨h, hv.symm⟩
    · simp [runOp, apiFetch, h] at hv

/-- Witness for C9: the delete operation at a 404 response raises an
error naming the status, and the search operation at an ok response
returns the body. -/
theorem apiFetch_ok_iff_error_names_status_witness :
    (∃ msg, runOp ApiOp.delete { ok := false, status := 404, body := "" }
        = Except.error msg ∧ strContains msg (toString (404 : Nat)) = true) ∧
    runOp ApiOp.search { ok := true, status := 200, body := "results" }
        = Except.ok "results" :=
  ⟨(apiFetch_ok_iff_error_names_status ApiOp.delete
      { ok := false, status := 404, body := "" }).2.1 rfl,
   (apiFetch_ok_iff_error_names_status ApiOp.search
      { ok := true, status := 200, body := "results" }).1 rfl⟩

/-- C1: search always resolves to a result set and never an error.  On
the backend (modelled from the spec), an unavailable vector index or an
empty nearest-neighbour result falls through to the case-insensitive
keyword fallback instead of raising; on the client
(`SearchScreen.tsx` `performSearch`), a non-blank query always resolves
to a list — the response items on success and the empty list on any
failure — and never propagates an exception. -/
theorem search_total_with_fallback :
    (∀ st query, searchItems none st query = keywordFallback st query) ∧
    (∀ st query, searchItems (some []) st query = keywordFallback st query) ∧
    (∀ (query : String) (e : String) prevResults, jsTrim query ≠ "" →
      performSearch query (Except.error e) prevResults = []) ∧
    (∀ (query : String) items prevResults, jsTrim query ≠ "" →
      performSearch query (Except.ok items) prevResults = items.getD []) := by
  refine ⟨fun st query => rfl, fun st query => rfl,
    fun query e prev h => ?_, fun query items prev h => ?_⟩
  · simp [performSearch, h]
  · simp [performSearch, h]

/-- Witness for C1: at the query `"chatgpt"` a rejected request resolves
to the empty list and a missing-items body resolves to the empty list. -/
theorem search_total_with_fallback_witness :
    performSearch "chatgpt" (Except.error "network down") [] = [] ∧
    performSearch "chatgpt" (Except.ok none) [] = [] :=
  ⟨search_total_with_fallback.2.2.1 "chatgpt" "network down" [] (by decide),
   search_total_with_fallback.2.2.2 "chatgpt" none [] (by decide)⟩

/-- C5: content classification is a pure deterministic function of the
captured string — `classify` and the client's `getContentType` are plain
functions, so equal inputs give equal outputs by construction — and for
every non-empty input the result is `content_type = url` with
`source_url` equal to the input exactly when the input matches the URL
pattern, and `content_type = text` (platform `generic`, no `source_url`)
otherwise. -/
theorem classify_pure_url_iff (raw : String) (hne : raw ≠ "") :
    ((classify raw).1 = "url" ∧ (classify raw).2.2 = some raw
        ↔ isUrlPattern raw = true) ∧
    (isUrlPattern raw = false → classify raw = ("text", "generic", none)) ∧
    (getContentType raw = (classify raw).1) := by
  by_cases h : isUrlPattern raw = true
  · refine ⟨⟨fun _ => h, fun _ => ?_⟩, fun hf => ?_, ?_⟩
    · simp [classify, h]
    · rw [hf] at h; cases h
    · have hb : (jsStartsWith raw "http://" || jsStartsWith raw "https://") = true := h
      simp [getContentType, classify, isUrlPattern, hb]
  · have hf : isUrlPattern raw = false := by
      cases hb : isUrlPattern raw
      · rfl
      · exact absurd hb h
    refine ⟨⟨fun hc => ?_, fun ht => absurd ht h⟩, fun _ => ?_, ?_⟩
    · exfalso
      have hcl : classify raw = ("text", "generic", none) := by simp [classify, hf]
      rw [hcl] at hc
      exact absurd hc.1 (by decide)
    · simp [classify, hf]
    · have hb : (jsStartsWith raw "http://" || jsStartsWith raw "https://") = false := hf
      simp [getContentType, classify, isUrlPattern, hb]

/-- Witness for C5: the classifier at a concrete YouTube URL and at plain
text. -/
theorem classify_pure_url_iff_witness :
    ((classify "https://www.youtube.com/watch?v=abc").1 = "url" ∧
      (classify "https://www.youtube.com/watch?v=abc").2.2
        = some "https://www.youtube.com/watch?v=abc"
      ↔ isUrlPattern "https://www.youtube.com/watch?v=abc" = true) ∧
    (isUrlPattern "just some text" = false →
      classify "just some text" = ("text", "generic", none)) :=
  ⟨(classify_pure_url_iff "https://www.youtube.com/watch?v=abc" (by decide)).1,
   (classify_pure_url_iff "just some text" (by decide)).2.1⟩

/-- C3: the chat operation's result carries both the model's answer and
the list of saved items actually used as grounding context: the returned
`related_items` are exactly the (bounded, top-K) internal search hits,
the returned answer is the model's completion of the prompt grounded in
exactly those items, and the client (`ChatScreen.tsx` `sendMessage`)
attaches them to the resolved assistant message so they render as
sources. -/
theorem chat_returns_answer_and_sources (llm : String → String)
    (vectorResult : Option (List SavedItem)) (st : List SavedItem)
    (message : String) (history : List ChatMessage) :
    (chat llm vectorResult st message history).related_items
        = (searchItems vectorResult st message).take 5 ∧
    (chat llm vectorResult st message history).response
        = llm (buildPrompt history message
            (chat llm vectorResult st message history).related_items) ∧
    (∀ m : Message, m.loading = true →
      resolveOne (ChatOutcome.success
          (chat llm vectorResult st message history).response
          (some (chat llm vectorResult st message history).related_items)) m
        = { m with
              content := (chat llm vectorResult st message history).response,
              loading := false,
              relatedItems := (chat llm vectorResult st message history).related_items }) := by
  refine ⟨rfl, rfl, fun m hm => ?_⟩
  simp [resolveOne, hm]

/-- Witness for C3: the chat operation at a concrete store and message;
the resolved assistant placeholder carries the answer and the sources. -/
theorem chat_returns_answer_and_sources_witness :
    (chat (fun _ => "answer") none [] "what did I save?" []).related_items
        = (searchItems none [] "what did I save?").take 5 ∧
    resolveOne (ChatOutcome.success
        (chat (fun _ => "answer") none [] "what did I save?" []).response
        (some (chat (fun _ => "answer") none [] "what did I save?" []).related_items))
      { id := "1", role := "assistant", content := "", loading := true, relatedItems := [] }
        = { id := "1", role := "assistant", content := "answer", loading := false,
            relatedItems := [] } := by
  have h := chat_returns_answer_and_sources (fun _ => "answer") none [] "what did I save?" []
  refine ⟨h.1, ?_⟩
  have h3 := h.2.2 ⟨"1", "assistant", "", true, []⟩ rfl
  exact h3

/-- A message already settled passes through the placeholder resolution
unchanged. -/
theorem resolveOne_of_settled (out : ChatOutcome) (m : Message)
    (h : m.loading = false) : resolveOne out m = m := by
  simp [resolveOne, h]

/-- A conversation with no in-flight message passes through the
placeholder resolution unchanged. -/
theorem resolveLoading_of_settled (msgs : List Message) (out : ChatOutcome)
    (h : ∀ m ∈ msgs, m.loading = false) : resolveLoading msgs out = msgs := by
  induction msgs with
  | nil => rfl
  | cons m rest ih =>
      have hm : m.loading = false := h m (List.mem_cons_self m rest)
      have hrest : ∀ x ∈ rest, x.loading = false :=
        fun x hx => h x (List.mem_cons_of_mem m hx)
      simp [resolveLoading] at ih ⊢
      exact ⟨resolveOne_of_settled out m hm, ih hrest⟩

/-- The assistant placeholder after resolution: answer and sources on a
successful `api.chat` call, the fixed error text on a failed one; in both
cases no longer loading. -/
def resolvedPlaceholder (now : Nat) (out : ChatOutcome) : Message :=
  match out with
  | ChatOutcome.success resp related =>
      { placeholderOf now with content := resp, loading := false,
                               relatedItems := related.getD [] }
  | ChatOutcome.failure =>
      { placeholderOf now with content := chatErrorText, loading := false }

/-- C10: `sendMessage` (`ChatScreen.tsx` lines 38–86) is a no-op on blank
input or while a request is in flight; otherwise it appends exactly one
user message and one assistant placeholder, and the placeholder is always
resolved — to the model's answer on success, to the fixed error text on
failure — so after the cycle no message of the conversation is stuck in
the loading state. -/
theorem sendMessage_guard_append_resolve (s : ChatScreenState) (now : Nat)
    (out : ChatOutcome) :
    (jsTrim s.input = "" ∨ s.loading = true → sendMessage s now out = s) ∧
    (jsTrim s.input ≠ "" → s.loading = false →
      (∀ m ∈ s.messages, m.loading = false) →
      (sendMessage s now out).messages
          = s.messages ++ [userMessageOf s now, resolvedPlaceholder now out] ∧
      (∀ m ∈ (sendMessage s now out).messages, m.loading = false) ∧
      (sendMessage s now out).loading = false) := by
  constructor
  · intro h
    simp only [sendMessage, if_pos h]
  · intro hin hfl hmsgs
    have hcond : ¬(jsTrim s.input = "" ∨ s.loading = true) := by
      rintro (h | h)
      · exact hin h
      · rw [hfl] at h; cases h
    have hmsg : (sendMessage s now out).messages
        = s.messages ++ [userMessageOf s now, resolvedPlaceholder now out] := by
      simp only [sendMessage, if_neg hcond]
      show resolveLoading (s.messages ++ [userMessageOf s now, placeholderOf now]) out
          = s.messages ++ [userMessageOf s now, resolvedPlaceholder now out]
      have hmap : resolveLoading (s.messages ++ [userMessageOf s now, placeholderOf now]) out
          = resolveLoading s.messages out ++
            [resolveOne out (userMessageOf s now), resolveOne out (placeholderOf now)] := by
        simp [resolveLoading]
      rw [hmap, resolveLoading_of_settled s.messages out hmsgs,
        resolveOne_of_settled out (userMessageOf s now) rfl]
      have hph : resolveOne out (placeholderOf now) = resolvedPlaceholder now out := by
        cases out with
        | success resp related => simp [resolveOne, placeholderOf, resolvedPlaceholder]
        | failure => simp [resolveOne, placeholderOf, resolvedPlaceholder]
      rw [hph]
    refine ⟨hmsg, ?_, ?_⟩
    · intro m hm
      rw [hmsg] at hm
      rcases List.mem_append.1 hm with hold | hnew
      · exact hmsgs m hold
      · rcases List.mem_cons.1 hnew with he | htail
        · rw [he]; rfl
        · rcases List.mem_cons.1 htail with he | habs
          · rw [he]
            cases out with
            | success resp related => rfl
            | failure => rfl
          · cases habs
    · simp only [sendMessage, if_neg hcond]

/-- Witness for C10: a concrete cycle — a blank-input no-op, and a
successful send from the initial screen state appending the user message
and the resolved answer. -/
theorem sendMessage_guard_append_resolve_witness :
    sendMessage ⟨[], "   ", false⟩ 7 ChatOutcome.failure = ⟨[], "   ", false⟩ ∧
    (sendMessage ⟨[], "hi", false⟩ 7 (ChatOutcome.success "hello" none)).messages
        = [userMessageOf ⟨[], "hi", false⟩ 7,
           resolvedPlaceholder 7 (ChatOutcome.success "hello" none)] :=
  ⟨(sendMessage_guard_append_resolve ⟨[], "   ", false⟩ 7 ChatOutcome.failure).1
      (Or.inl (by decide)),
   ((sendMessage_guard_append_resolve ⟨[], "hi", false⟩ 7
      (ChatOutcome.success "hello" none)).2 (by decide) rfl
      (fun m hm => absurd hm (List.not_mem_nil m))).1⟩

/-! ### Store lemmas -/

/-- The classifier yields `url` exactly when it attaches a `source_url`. -/
theorem classify_url_iff_source (raw : String) :
    ((classify raw).1 = "url" ↔ (classify raw).2.2.isSome = true) := by
  by_cases h : isUrlPattern raw = true
  · simp [classify, h]
  · have hf : isUrlPattern raw = false := by
      cases hb : isUrlPattern raw
      · rfl
      · exact absurd hb h
    simp [classify, hf]

/-- Inversion of a successful `saveContent`: the guard passed and the new
row was appended. -/
theorem saveContent_ok {st : List SavedItem} {id : String} {now : Nat}
    {content : String} {notes : Option String} {meta : Option PageMeta}
    {summary : Option String} {cats : List String}
    {st' : List SavedItem} {it : SavedItem}
    (h : saveContent st id now content notes meta summary cats = Except.ok (st', it)) :
    st' = st ++ [it] ∧ it.raw_content = content ∧ jsTrim content ≠ "" ∧
    it.created_at = now ∧ it.updated_at = none ∧
    (it.content_type = "url" ↔ it.source_url.isSome = true) := by
  by_cases hg : jsTrim content = ""
  · simp [saveContent, hg] at h
  · simp only [saveContent, if_neg hg, Except.ok.injEq, Prod.mk.injEq] at h
    obtain ⟨hst, hit⟩ := h
    subst hit
    refine ⟨by rw [hst], rfl, hg, rfl, rfl, ?_⟩
    exact classify_url_iff_source content

/-- Inversion of a successful `uploadImage`: the payload parsed and the
image row was appended. -/
theorem uploadImage_ok {st : List SavedItem} {id : String} {now : Nat}
    {imageData : String} {notes : Option String}
    {summary : Option String} {cats : List String}
    {st' : List SavedItem} {it : SavedItem}
    (h : uploadImage st id now imageData notes summary cats = Except.ok (st', it)) :
    st' = st ++ [it] ∧ it.raw_content = imageData ∧ imageData ≠ "" ∧
    it.content_type = "image" ∧ it.source_url = none ∧
    it.created_at = now ∧ it.updated_at = none := by
  by_cases hg : imageData = ""
  · simp [uploadImage, base64Parses, hg] at h
  · have hp : base64Parses imageData = true := by
      simp [base64Parses, hg]
    simp only [uploadImage, hp, if_pos, Except.ok.injEq, Prod.mk.injEq] at h
    obtain ⟨hst, hit⟩ := h
    subst hit
    exact ⟨by rw [hst], rfl, hg, rfl, rfl, rfl, rfl⟩

/-- The function `starFlipRow` never changes a row's identity or immutable fields. -/
theorem starFlipRow_fields (tid : String) (now : Nat) (j : SavedItem) :
    (starFlipRow tid now j).id = j.id ∧
    (starFlipRow tid now j).raw_content = j.raw_content ∧
    (starFlipRow tid now j).content_type = j.content_type ∧
    (starFlipRow tid now j).source_url = j.source_url ∧
    (starFlipRow tid now j).created_at = j.created_at := by
  by_cases h : j.id = tid
  · simp [starFlipRow, h, applyUpdateTrigger]
  · simp [starFlipRow, h]

/-- Inversion of a successful `toggleStar`. -/
theorem toggleStar_ok {st : List SavedItem} {tid : String} {now : Nat}
    {st' : List SavedItem} {b : Bool}
    (h : toggleStar st tid now = Except.ok (st', b)) :
    st' = st.map (starFlipRow tid now) ∧
    ∃ it, findItem st tid = some it ∧ b = !it.is_starred := by
  cases hf : findItem st tid with
  | none => simp [toggleStar, hf] at h
  | some it =>
      simp only [toggleStar, hf, Except.ok.injEq, Prod.mk.injEq] at h
      exact ⟨h.1.symm, it, rfl, h.2.symm⟩

/-- Inversion of a successful `deleteItem`. -/
theorem deleteItem_ok {st : List SavedItem} {tid : String}
    {st' : List SavedItem}
    (h : deleteItem st tid = Except.ok st') :
    st' = st.filter fun it => !(it.id == tid) := by
  cases hf : findItem st tid with
  | none => simp [deleteItem, hf] at h
  | some it =>
      simp only [deleteItem, hf, Except.ok.injEq] at h
      exact h.symm

/-- Lookup `findItem` looks past an appended suffix when the id is already
present. -/
theorem findItem_append_of_some {st : List SavedItem} {id : String}
    {it : SavedItem} (l : List SavedItem)
    (h : findItem st id = some it) : findItem (st ++ l) id = some it := by
  induction st with
  | nil => simp [findItem] at h
  | cons j rest ih =>
      by_cases hj : j.id = id
      · simp only [findItem, if_pos hj] at h
        simp only [List.cons_append, findItem, if_pos hj]
        exact h
      · simp only [findItem, if_neg hj] at h
        simp only [List.cons_append, findItem, if_neg hj]
        exact ih h

/-- Lookup `findItem` commutes with a map that preserves ids. -/
theorem findItem_map {f : SavedItem → SavedItem}
    (hf : ∀ j, (f j).id = j.id) (st : List SavedItem) (id : String) :
    findItem (st.map f) id = (findItem st id).map f := by
  induction st with
  | nil => rfl
  | cons j rest ih =>
      by_cases hj : j.id = id
      · have hfj : (f j).id = id := by rw [hf j, hj]
        simp only [List.map_cons, findItem, if_pos hfj, if_pos hj]
        rfl
      · have hfj : ¬(f j).id = id := by rw [hf j]; exact hj
        simp only [List.map_cons, findItem, if_neg hfj, if_neg hj]
        exact ih

/-- Lookup `findItem` after removing the rows of another id is unchanged;
removing the id itself empties the lookup. -/
theorem findItem_filter_ne (st : List SavedItem) (tid id : String) :
    findItem (st.filter fun it => !(it.id == tid)) id
      = if id = tid then none else findItem st id := by
  induction st with
  | nil => simp [findItem]
  | cons j rest ih =>
      by_cases hjt : j.id = tid
      · rw [List.filter_cons_of_neg (by simp [hjt]), ih]
        by_cases hid : id = tid
        · simp only [if_pos hid]
        · have hjid : ¬j.id = id := fun he => hid (he ▸ hjt)
          simp only [if_neg hid, findItem, if_neg hjid]
      · rw [List.filter_cons_of_pos (by simp [hjt])]
        by_cases hjid : j.id = id
        · have hid : ¬id = tid := fun he => hjt (by rw [hjid, he])
          simp only [findItem, if_pos hjid, if_neg hid]
        · simp only [findItem, if_neg hjid, ih]

/-- A found row carries the id it was looked up by. -/
theorem findItem_id {st : List SavedItem} {id : String} {it : SavedItem}
    (h : findItem st id = some it) : it.id = id := by
  induction st with
  | nil => simp [findItem] at h
  | cons j rest ih =>
      by_cases hj : j.id = id
      · simp only [findItem, if_pos hj, Option.some.injEq] at h
        rw [← h]; exact hj
      · simp only [findItem, if_neg hj] at h
        exact ih h

/-- The row-level star flip on the targeted row. -/
theorem findItem_after_toggle {st : List SavedItem} {tid : String} {now : Nat}
    {st' : List SavedItem} {b : Bool} {it : SavedItem}
    (h : toggleStar st tid now = Except.ok (st', b))
    (hf : findItem st tid = some it) :
    findItem st' tid
      = some (applyUpdateTrigger { it with is_starred := !it.is_starred } now) := by
  obtain ⟨hst, -⟩ := toggleStar_ok h
  have hmap := findItem_map (f := starFlipRow tid now)
    (fun j => (starFlipRow_fields tid now j).1) st tid
  have hit : it.id = tid := findItem_id hf
  rw [hst, hmap, hf]
  simp [starFlipRow, hit]

/-- C2: the star toggle is an involution on the stored `is_starred`
value — toggling twice returns it to its original value — and toggling a
nonexistent id reports not-found rather than silently doing nothing
(star-toggle operation modelled from the spec; consumed by
`HomeScreen.tsx` `handleStar`). -/
theorem toggleStar_involution_and_notFound :
    (∀ st tid now₁ now₂ st₁ b₁, toggleStar st tid now₁ = Except.ok (st₁, b₁) →
      ∃ st₂ b₂, toggleStar st₁ tid now₂ = Except.ok (st₂, b₂) ∧
        starOf st₂ tid = starOf st tid ∧ b₂ = !b₁) ∧
    (∀ st tid now, findItem st tid = none →
      toggleStar st tid now = Except.error ApiError.notFound) := by
  constructor
  · intro st tid now₁ now₂ st₁ b₁ h₁
    obtain ⟨hst₁, it, hf, hb₁⟩ := toggleStar_ok h₁
    have hf₁ : findItem st₁ tid
        = some (applyUpdateTrigger { it with is_starred := !it.is_starred } now₁) :=
      findItem_after_toggle h₁ hf
    refine ⟨st₁.map (starFlipRow tid now₂),
      !(applyUpdateTrigger { it with is_starred := !it.is_starred } now₁).is_starred,
      ?_, ?_, ?_⟩
    · simp only [toggleStar, hf₁]
    · have h₂ : toggleStar st₁ tid now₂
          = Except.ok (st₁.map (starFlipRow tid now₂),
              !(applyUpdateTrigger { it with is_starred := !it.is_starred } now₁).is_starred) := by
        simp only [toggleStar, hf₁]
      have hf₂ := findItem_after_toggle h₂ hf₁
      simp [starOf, hf₂, hf, applyUpdateTrigger]
    · rw [hb₁]
      simp [applyUpdateTrigger]
  · intro st tid now h
    simp only [toggleStar, h]

/-- A concrete unstarred text row, used by the witnesses. -/
def demoTextItem : SavedItem :=
  { id := "a", user_id := "default_user", source_platform := "generic",
    source_url := none, content_type := "text", title := none,
    description := none, thumbnail_url := none, raw_content := "hello",
    extracted_text := some "hello", ai_summary := none, categories := [],
    notes := none, is_starred := false, created_at := 1, updated_at := none }

/-- The row `demoTextItem` after one star toggle at time 2. -/
def demoTextItemStarred : SavedItem :=
  { demoTextItem with is_starred := true, updated_at := some 2 }

/-- Witness for C2: a concrete one-item store — toggling `"a"` twice
restores the starred flag, toggling the absent `"zzz"` reports
not-found. -/
theorem toggleStar_involution_and_notFound_witness :
    (∃ st₂ b₂, toggleStar [demoTextItemStarred] "a" 3 = Except.ok (st₂, b₂) ∧
      starOf st₂ "a" = starOf [demoTextItem] "a" ∧ b₂ = !true) ∧
    toggleStar [] "zzz" 5 = Except.error ApiError.notFound := by
  constructor
  · exact toggleStar_involution_and_notFound.1 [demoTextItem] "a" 2 3
      [demoTextItemStarred] true rfl
  · exact toggleStar_involution_and_notFound.2 [] "zzz" 5 rfl

/-- C8: `created_at` is set exactly once at persistence (the schema
DEFAULT) and no write operation ever changes it afterwards, and every
update that changes a mutable field — the star toggle, the only row
UPDATE in the system — stamps `updated_at` with the time of that update,
as the `update_updated_at` trigger of the schema prescribes. -/
theorem created_at_immutable_updated_at_stamped :
    (∀ st st', Step st st' → ∀ id it it', findItem st id = some it →
      findItem st' id = some it' → it'.created_at = it.created_at) ∧
    (∀ st tid now st' b it, toggleStar st tid now = Except.ok (st', b) →
      findItem st tid = some it →
      ∃ it', findItem st' tid = some it' ∧ it'.updated_at = some now ∧
        it'.created_at = it.created_at ∧ it'.is_starred = !it.is_starred) := by
  constructor
  · intro st st' hs id it it' hf hf'
    cases hs with
    | save sid snow scontent snotes smeta ssummary scats sst' sit h =>
        obtain ⟨hst, -⟩ := saveContent_ok h
        rw [hst, findItem_append_of_some _ hf] at hf'
        rw [← Option.some.inj hf']
    | upload uid unow udata unotes usummary ucats ust' uit h =>
        obtain ⟨hst, -⟩ := uploadImage_ok h
        rw [hst, findItem_append_of_some _ hf] at hf'
        rw [← Option.some.inj hf']
    | star tid tnow tst' tb h =>
        obtain ⟨hst, -⟩ := toggleStar_ok h
        rw [hst, findItem_map (fun j => (starFlipRow_fields tid tnow j).1), hf] at hf'
        have he : starFlipRow tid tnow it = it' := Option.some.inj (by simpa using hf')
        rw [← he]
        exact (starFlipRow_fields tid tnow it).2.2.2.2
    | del did dst' h =>
        rw [deleteItem_ok h, findItem_filter_ne] at hf'
        by_cases hid : id = did
        · rw [if_pos hid] at hf'; cases hf'
        · rw [if_neg hid, hf] at hf'
          rw [← Option.some.inj hf']
  · intro st tid now st' b it h hf
    exact ⟨applyUpdateTrigger { it with is_starred := !it.is_starred } now,
      findItem_after_toggle h hf, rfl, rfl, rfl⟩

/-- Witness for C8: a concrete star toggle at time 2 keeps `created_at`
at its insertion value 1 and stamps `updated_at` with 2. -/
theorem created_at_immutable_updated_at_stamped_witness :
    demoTextItemStarred.created_at = demoTextItem.created_at ∧
    (∃ it', findItem [demoTextItemStarred] "a" = some it' ∧
      it'.updated_at = some 2 ∧ it'.created_at = demoTextItem.created_at ∧
      it'.is_starred = !demoTextItem.is_starred) :=
  ⟨created_at_immutable_updated_at_stamped.1 [demoTextItem] [demoTextItemStarred]
      (Step.star [demoTextItem] "a" 2 [demoTextItemStarred] true rfl)
      "a" demoTextItem demoTextItemStarred rfl rfl,
   created_at_immutable_updated_at_stamped.2 [demoTextItem] "a" 2
      [demoTextItemStarred] true demoTextItem rfl rfl⟩

/-- The one-row demo store is reachable: one text save at time 1. -/
theorem demoStore_reachable : Reachable [demoTextItem] :=
  Reachable.step Reachable.init
    (Step.save [] "a" 1 "hello" none none none [] [demoTextItem] demoTextItem rfl)

/-- A concrete URL row, as persisted by a save of
`"https://example.com/article"` whose metadata fetch failed softly. -/
def demoUrlItem : SavedItem :=
  { id := "b", user_id := "default_user", source_platform := "generic",
    source_url := some "https://example.com/article", content_type := "url",
    title := none, description := none, thumbnail_url := none,
    raw_content := "https://example.com/article", extracted_text := none,
    ai_summary := none, categories := [], notes := none, is_starred := false,
    created_at := 2, updated_at := none }

/-- The two-row demo store is reachable: text save at time 1, URL save at
time 2. -/
theorem demoStore2_reachable : Reachable [demoTextItem, demoUrlItem] :=
  Reachable.step demoStore_reachable
    (Step.save [demoTextItem] "b" 2 "https://example.com/article" none none none []
      [demoTextItem, demoUrlItem] demoUrlItem rfl)

/-- C4: every persisted `SavedItem` has a non-empty `raw_content` in
every reachable store state; a save request with empty content is a hard
failure rejected before persistence; and the client FAB handler
(`HomeScreen.tsx` lines 223–235) never submits blank clipboard content in
the first place. -/
theorem raw_content_never_empty :
    (∀ st, Reachable st → ∀ it ∈ st, it.raw_content ≠ "") ∧
    (∀ clipboard content, handleFabPress clipboard = some content → content ≠ "") ∧
    (∀ st id now notes meta summary cats,
      saveContent st id now "" notes meta summary cats
        = Except.error ApiError.invalidInput) := by
  refine ⟨?_, ?_, ?_⟩
  · intro st hr
    induction hr with
    | init => intro it hit; cases hit
    | step hr hs ih =>
        intro it hit
        cases hs with
        | save sid snow scontent snotes smeta ssummary scats sst' sit h =>
            obtain ⟨hst, hraw, hne, -⟩ := saveContent_ok h
            rw [hst] at hit
            rcases List.mem_append.1 hit with hold | hnew
            · exact ih it hold
            · rw [List.mem_singleton.1 hnew, hraw]
              exact jsTrim_ne_empty hne
        | upload uid unow udata unotes usummary ucats ust' uit h =>
            obtain ⟨hst, hraw, hne, -⟩ := uploadImage_ok h
            rw [hst] at hit
            rcases List.mem_append.1 hit with hold | hnew
            · exact ih it hold
            · rw [List.mem_singleton.1 hnew, hraw]
              exact hne
        | star tid tnow tst' tb h =>
            obtain ⟨hst, -⟩ := toggleStar_ok h
            rw [hst] at hit
            obtain ⟨j, hj, hfe⟩ := List.mem_map.1 hit
            rw [← hfe, (starFlipRow_fields tid tnow j).2.1]
            exact ih j hj
        | del did dst' h =>
            rw [deleteItem_ok h] at hit
            exact ih it (List.mem_of_mem_filter hit)
  · intro clipboard content h
    by_cases hg : jsTrim clipboard = ""
    · simp [handleFabPress, hg] at h
    · simp only [handleFabPress, if_neg hg, Option.some.injEq] at h
      rw [← h]
      exact hg
  · intro st id now notes meta summary cats
    rfl

/-- Witness for C4: the reachable one-row store has non-empty content,
the FAB handler trims `"  hi "` to the non-empty `"hi"`, and saving empty
content is rejected. -/
theorem raw_content_never_empty_witness :
    demoTextItem.raw_content ≠ "" ∧ ("hi" : String) ≠ "" ∧
    saveContent [] "z" 9 "" none none none [] = Except.error ApiError.invalidInput :=
  ⟨raw_content_never_empty.1 [demoTextItem] demoStore_reachable demoTextItem
      (List.mem_singleton.2 rfl),
   raw_content_never_empty.2.1 "  hi " "hi" rfl,
   raw_content_never_empty.2.2 [] "z" 9 none none none []⟩

/-- C7: in every reachable store state, `content_type = url` holds
exactly when `source_url` is present; items of any other type (text,
image) carry no `source_url`. -/
theorem content_type_url_iff_source_url :
    ∀ st, Reachable st → ∀ it ∈ st,
      (it.content_type = "url" ↔ it.source_url.isSome = true) ∧
      (it.content_type ≠ "url" → it.source_url = none) := by
  have main : ∀ st, Reachable st → ∀ it ∈ st,
      (it.content_type = "url" ↔ it.source_url.isSome = true) := by
    intro st hr
    induction hr with
    | init => intro it hit; cases hit
    | step hr hs ih =>
        intro it hit
        cases hs with
        | save sid snow scontent snotes smeta ssummary scats sst' sit h =>
            obtain ⟨hst, -, -, -, -, hiff⟩ := saveContent_ok h
            rw [hst] at hit
            rcases List.mem_append.1 hit with hold | hnew
            · exact ih it hold
            · rw [List.mem_singleton.1 hnew]
              exact hiff
        | upload uid unow udata unotes usummary ucats ust' uit h =>
            obtain ⟨hst, -, -, hct, hsrc, -⟩ := uploadImage_ok h
            rw [hst] at hit
            rcases List.mem_append.1 hit with hold | hnew
            · exact ih it hold
            · rw [List.mem_singleton.1 hnew, hct, hsrc]
              simp
        | star tid tnow tst' tb h =>
            obtain ⟨hst, -⟩ := toggleStar_ok h
            rw [hst] at hit
            obtain ⟨j, hj, hfe⟩ := List.mem_map.1 hit
            rw [← hfe, (starFlipRow_fields tid tnow j).2.2.1,
              (starFlipRow_fields tid tnow j).2.2.2.1]
            exact ih j hj
        | del did dst' h =>
            rw [deleteItem_ok h] at hit
            exact ih it (List.mem_of_mem_filter hit)
  intro st hr it hit
  refine ⟨main st hr it hit, fun hne => ?_⟩
  cases hsrc : it.source_url with
  | none => rfl
  | some u =>
      exact absurd ((main st hr it hit).2 (by rw [hsrc]; rfl)) hne

/-- Witness for C7: in the reachable two-row store, the URL item carries
its `source_url` and the text item carries none. -/
theorem content_type_url_iff_source_url_witness :
    (demoUrlItem.content_type = "url" ↔ demoUrlItem.source_url.isSome = true) ∧
    (demoTextItem.content_type ≠ "url" → demoTextItem.source_url = none) :=
  ⟨(content_type_url_iff_source_url [demoTextItem, demoUrlItem] demoStore2_reachable
      demoUrlItem (by simp)).1,
   (content_type_url_iff_source_url [demoTextItem, demoUrlItem] demoStore2_reachable
      demoTextItem (by simp)).2⟩

/-- Counterexample to C6 as stated: with two stored items both in scope
and a limit of 1, the List result cannot contain *exactly* the items
satisfying the filter — the older matching item is cut off by the limit.
The store is reachable and the truncation keeps the newest item, as the
amended claim says. -/
theorem listItems_exactness_counterexample :
    Reachable [demoTextItem, demoUrlItem] ∧
    inListScope defaultOwner ListFilter.all demoTextItem = true ∧
    demoTextItem ∈ [demoTextItem, demoUrlItem] ∧
    demoTextItem ∉ listItems [demoTextItem, demoUrlItem] defaultOwner 1 ListFilter.all ∧
    listItems [demoTextItem, demoUrlItem] defaultOwner 1 ListFilter.all = [demoUrlItem] :=
  ⟨demoStore2_reachable, by decide, by decide, by decide, by decide⟩

/-- C6 (amended): the List operation returns at most `limit` items, each
belonging to the owner and satisfying the requested filter, ordered by
`created_at` descending; and whenever at most `limit` items match, the
result contains exactly the matching items (beyond the limit the
newest-first truncation necessarily drops older matches). -/
theorem listItems_bounded_sorted_filtered (st : List SavedItem) (owner : String)
    (lim : Nat) (f : ListFilter) :
    (listItems st owner lim f).length ≤ lim ∧
    (∀ it ∈ listItems st owner lim f, inListScope owner f it = true) ∧
    List.Sorted createdDesc (listItems st owner lim f) ∧
    ((st.filter (inListScope owner f)).length ≤ lim →
      ∀ it ∈ st, inListScope owner f it = true → it ∈ listItems st owner lim f) := by
  refine ⟨List.length_take_le lim _, ?_, ?_, ?_⟩
  · intro it hit
    have h1 : it ∈ (st.filter (inListScope owner f)).insertionSort createdDesc :=
      List.take_subset _ _ hit
    have h2 : it ∈ st.filter (inListScope owner f) :=
      (List.perm_insertionSort createdDesc _).mem_iff.1 h1
    exact (List.mem_filter.1 h2).2
  · exact List.Pairwise.sublist (List.take_sublist _ _)
      (List.sorted_insertionSort createdDesc _)
  · intro hlen it hit hscope
    have hmem : it ∈ st.filter (inListScope owner f) :=
      List.mem_filter.2 ⟨hit, hscope⟩
    have hsortlen :
        ((st.filter (inListScope owner f)).insertionSort createdDesc).length ≤ lim := by
      rw [(List.perm_insertionSort createdDesc _).length_eq]
      exact hlen
    show it ∈ ((st.filter (inListScope owner f)).insertionSort createdDesc).take lim
    rw [List.take_of_length_le hsortlen]
    exact (List.perm_insertionSort createdDesc _).mem_iff.2 hmem

/-- Witness for C6: on the reachable two-row store with limit 2, both
stored items appear in the List result. -/
theorem listItems_bounded_sorted_filtered_witness :
    (listItems [demoTextItem, demoUrlItem] defaultOwner 2 ListFilter.all).length ≤ 2 ∧
    demoTextItem ∈ listItems [demoTextItem, demoUrlItem] defaultOwner 2 ListFilter.all :=
  ⟨(listItems_bounded_sorted_filtered [demoTextItem, demoUrlItem] defaultOwner 2
      ListFilter.all).1,
   (listItems_bounded_sorted_filtered [demoTextItem, demoUrlItem] defaultOwner 2
      ListFilter.all).2.2.2 (by decide) demoTextItem (by decide) (by decide)⟩

end MindBase
